import Mathlib

/-!
# Document-to-PDF conversion session: coordinator and worker

A shallow embedding of the two programs of the repository:

* `public/office_thread.js`, the conversion worker that owns the office engine;
* `src/components/ZetaDocumentConverter.tsx`, the coordinator (a React component).

JavaScript strings are Lean strings. The host calls whose code is not part of the
repository (the office engine, the browser) are represented by their outcome on the
call at hand, so that every path of the `try`/`catch` blocks of the source is present.
-/

namespace DocToPdf

/-! ## JavaScript string helpers -/

/-- The method `String.prototype.toLowerCase`. Only the letters `A`..`Z` are mapped; the
literals the source compares the result with are ASCII, and no other character lower-cases
to an ASCII letter among them or to a dot. -/
def toLowerCase (s : String) : String :=
  ⟨s.data.map Char.toLower⟩

/-- The method `String.prototype.split` with a one-character separator, on the
characters of the string: the pieces between the occurrences of `sep`. -/
def splitChars (sep : Char) : List Char → List (List Char)
  | [] => [[]]
  | c :: cs =>
    if c = sep then [] :: splitChars sep cs
    else
      match splitChars sep cs with
      | [] => [[c]]
      | piece :: rest => (c :: piece) :: rest

/-- The call `s.split(sep)`. -/
def split (s : String) (sep : Char) : List String :=
  (splitChars sep s.data).map String.mk

/-- The method `Array.prototype.pop`, as used on a fresh array: its last element, or
`undefined` (here `none`) on the empty array. -/
def pop (xs : List String) : Option String :=
  xs.getLast?

/-! ## The worker: `public/office_thread.js` -/

/-- The `switch (extension)` of `handleConversion`, with the default assigned before it. -/
def filterForExtension (extension : Option String) : String :=
  if extension = some "xlsx" ∨ extension = some "xls" ∨ extension = some "ods" then
    "calc_pdf_Export"
  else if extension = some "pptx" ∨ extension = some "ppt" ∨ extension = some "odp" then
    "impress_pdf_Export"
  else if extension = some "odg" then
    "draw_pdf_Export"
  else
    "writer_pdf_Export"

/-- The `extension` constant of `handleConversion`:
`fileName.toLowerCase().split('.').pop()`. -/
def extensionOf (fileName : String) : Option String :=
  pop (split (toLowerCase fileName) '.')

/-- The `filterName` that `handleConversion` computes for a file name. -/
def filterNameOf (fileName : String) : String :=
  filterForExtension (extensionOf fileName)

/-- A value thrown by a host call. `uno` is an exception of the office engine, the kind
that `zetajs.catchUnoException` recognises, with its `Message`; `error` is a JavaScript
`Error` with its `message`; `other` is any other value that is neither null nor undefined,
whose `message` property is undefined; `null` and `undefined` are these two values, of
which no property can be read. -/
inductive Thrown where
  | uno (Message : String)
  | error (message : String)
  | other
  | null
  | undefined
  deriving DecidableEq, Repr

/-- The outcome of one host call: it returns a value or throws. -/
inductive Outcome (α : Type) where
  | ok (value : α)
  | throws (thrown : Thrown)
  deriving DecidableEq, Repr

/-- The global `xModel` of the worker: never assigned, assigned a null reference by a
load that produced no document, or a document of the engine. -/
inductive XModel where
  | undefined
  | null
  | model (handle : Nat)
  deriving DecidableEq, Repr

/-- A command received on `zHT.thrPort`, the `e.data` of the handler, with the fields the
coordinator sends, all strings (`from_` and `to_` are the fields `from` and `to`). -/
structure WorkerMsg where
  cmd : String
  fileName : String
  from_ : String
  to_ : String
  deriving DecidableEq, Repr

/-- A message posted to the main thread. The `stack` text that the top-level handler adds
to its `error` message is host-specific and is left out. -/
inductive MainMsg where
  | ready
  | converted (fileName from_ to_ : String)
  | error (error : Option String) (fileName : Option String)
  | cleaned
  deriving DecidableEq, Repr

/-- What the worker does to the outside while it handles one command, in order: the
engine calls, the messages posted, and `raise`, a function of the worker ending by throwing
an `Error` with this message. -/
inductive Effect where
  | queryInterface (handle : Nat)
  | close (handle : Nat)
  | load (url : String)
  | store (handle : Nat) (url : String) (filterName : String)
  | post (msg : MainMsg)
  | raise (message : String)
  deriving DecidableEq, Repr

/-- The outcomes of the engine calls that one command can make:
`xModel.queryInterface(XCloseable)`, `xModel.close(false)`,
`zHT.desktop.loadComponentFromURL(..)` and `xModel.storeToURL(..)`. -/
structure Engine where
  queryInterface : Outcome Bool
  close : Outcome Unit
  loadComponentFromURL : Outcome XModel
  storeToURL : Outcome Unit
  deriving DecidableEq, Repr

/-- The module-level variables of the worker that its handlers assign. -/
structure Worker where
  xModel : XModel
  bean_pdf_export : Option String
  deriving DecidableEq, Repr

/-- The text of the `TypeError` raised by `xModel.queryInterface` when `xModel` is null.
The wording is the host's. -/
def nullQueryInterfaceMessage : String :=
  "Cannot read properties of null (reading 'queryInterface')"

/-- The text of the `TypeError` raised by reading `error.message` when `error` is null.
The wording is the host's. -/
def nullMessageError : String :=
  "Cannot read properties of null (reading 'message')"

/-- The text of the `TypeError` raised by reading `error.message` when `error` is
undefined. The wording is the host's. -/
def undefinedMessageError : String :=
  "Cannot read properties of undefined (reading 'message')"

/-- The `catch` block of `handleConversion`: it posts `error` with the `errorMessage`
`exc ? "LibreOffice Error: " + exc.Message : error.message` and the file name. For a thrown
null or undefined, reading `error.message` throws a `TypeError` out of the block, and out
of `handleConversion`, before anything is posted. -/
def conversionError (thrown : Thrown) (fileName : String) : Effect :=
  match thrown with
  | .uno m => .post (.error (some ("LibreOffice Error: " ++ m)) (some fileName))
  | .error m => .post (.error (some m) (some fileName))
  | .other => .post (.error none (some fileName))
  | .null => .raise nullMessageError
  | .undefined => .raise undefinedMessageError

/-- The block `if (xModel !== undefined && xModel.queryInterface(..)) { xModel.close(false);
xModel = undefined; }` with which both handlers start. The third component is what the
block threw, if it threw. -/
def closeOldDocument (eng : Engine) (w : Worker) : Worker × List Effect × Option Thrown :=
  match w.xModel with
  | .undefined => (w, [], none)
  | .null => (w, [], some (.error nullQueryInterfaceMessage))
  | .model h =>
    match eng.queryInterface with
    | .throws t => (w, [.queryInterface h], some t)
    | .ok false => (w, [.queryInterface h], none)
    | .ok true =>
      match eng.close with
      | .throws t => (w, [.queryInterface h, .close h], some t)
      | .ok () => ({ w with xModel := .undefined }, [.queryInterface h, .close h], none)

/-- The function `handleConversion(data)`: the worker after the call and what it did. The
statement `throw new Error('Failed to load document')` is caught by the function's own
`catch` as an `Error` with that message. -/
def handleConversion (eng : Engine) (w : Worker) (data : WorkerMsg) : Worker × List Effect :=
  match closeOldDocument eng w with
  | (w1, done, some t) => (w1, done ++ [conversionError t data.fileName])
  | (w1, done, none) =>
    let filterName := filterNameOf data.fileName
    let w2 : Worker := { w1 with bean_pdf_export := some filterName }
    let load := Effect.load ("file://" ++ data.from_)
    match eng.loadComponentFromURL with
    | .throws t => (w2, done ++ [load, conversionError t data.fileName])
    | .ok loaded =>
      let w3 : Worker := { w2 with xModel := loaded }
      match loaded with
      | .model h =>
        let store := Effect.store h ("file://" ++ data.to_) filterName
        match eng.storeToURL with
        | .throws t => (w3, done ++ [load, store, conversionError t data.fileName])
        | .ok () =>
          (w3, done ++ [load, store, .post (.converted data.fileName data.from_ data.to_)])
      | _ =>
        (w3, done ++ [load, conversionError (.error "Failed to load document") data.fileName])

/-- The function `handleCleanup()`. -/
def handleCleanup (eng : Engine) (w : Worker) : Worker × List Effect :=
  match closeOldDocument eng w with
  | (w1, done, some _) => (w1, done)
  | (w1, done, none) => (w1, done ++ [.post .cleaned])

/-- The top-level `catch` of the handler `zHT.thrPort.onmessage`, on one effect of the
`try` body: an `Error` thrown out of the body is answered by an `error` message with the
message of that `Error` and no file name. -/
def topLevelCatch : Effect → Effect
  | .raise message => .post (.error (some message) none)
  | e => e

/-- The handler `zHT.thrPort.onmessage`: the `switch` on `e.data.cmd` inside the top-level
`try`, whose default case throws, and the top-level `catch`. -/
def onmessage (eng : Engine) (w : Worker) (data : WorkerMsg) : Worker × List Effect :=
  let body : Worker × List Effect :=
    if data.cmd = "convert" then handleConversion eng w data
    else if data.cmd = "cleanup" then handleCleanup eng w
    else (w, [.raise ("Unknown message command: " ++ data.cmd)])
  (body.1, body.2.map topLevelCatch)

/-- The messages posted to the main thread among the effects of a handler, in order. -/
def posted (effects : List Effect) : List MainMsg :=
  effects.filterMap fun e =>
    match e with
    | .post msg => some msg
    | _ => none

/-- The message that reaches the main thread for an exception caught in
`handleConversion`: the one its `catch` block posts, or for a thrown null or undefined the
one the top-level `catch` posts for the `TypeError`. -/
def caughtError (thrown : Thrown) (fileName : String) : MainMsg :=
  match thrown with
  | .null => .error (some nullMessageError) none
  | .undefined => .error (some undefinedMessageError) none
  | .uno m => .error (some ("LibreOffice Error: " ++ m)) (some fileName)
  | .error m => .error (some m) (some fileName)
  | .other => .error none (some fileName)

/-! ## The shared virtual filesystem -/

/-- The content of a file. -/
abbrev Bytes := List Nat

/-- Modelled from the spec: the shared virtual filesystem `window.FS`, of which the source
has only the type declaration; a byte store keyed by path strings. -/
structure VFS where
  files : List (String × Bytes)
  deriving DecidableEq, Repr

/-- The entry of a path in a list of files. -/
def lookupPath (path : String) : List (String × Bytes) → Option Bytes
  | [] => none
  | (p, b) :: rest => if p = path then some b else lookupPath path rest

/-- A list of files without the entries of a path. -/
def erasePath (path : String) : List (String × Bytes) → List (String × Bytes)
  | [] => []
  | (p, b) :: rest => if p = path then erasePath path rest else (p, b) :: erasePath path rest

/-- Modelled from the spec: `readFile(path) → bytes` of the virtual filesystem; `none` stands
for the exception thrown when nothing is stored at the path. -/
def VFS.readFile (fs : VFS) (path : String) : Option Bytes :=
  lookupPath path fs.files

/-- Modelled from the spec: `writeFile(path, bytes)` of the virtual filesystem. -/
def VFS.writeFile (fs : VFS) (path : String) (data : Bytes) : VFS :=
  ⟨(path, data) :: erasePath path fs.files⟩

/-- Modelled from the spec: `unlink(path)` of the virtual filesystem inside
`try { .. } catch {}`, the only way the source calls it: the exception thrown when nothing
is stored at the path is swallowed. -/
def VFS.unlink (fs : VFS) (path : String) : VFS :=
  ⟨erasePath path fs.files⟩

/-- Whether a file is stored at the path. -/
def VFS.fileExists (fs : VFS) (path : String) : Bool :=
  (fs.readFile path).isSome

/-! ## The coordinator: `src/components/ZetaDocumentConverter.tsx` -/

/-- The type `ConversionStatus`. -/
inductive ConversionStatus where
  | idle | loading | converting | success | error
  deriving DecidableEq, Repr

/-- The type of the `warmupStatus` state. -/
inductive WarmupStatus where
  | idle | warming | ready | failed
  deriving DecidableEq, Repr

/-- A browser `File`: its name, its declared content type, and what
`await file.arrayBuffer()` gives. -/
structure File where
  name : String
  type : String
  arrayBuffer : Outcome Bytes
  deriving DecidableEq, Repr

/-- The state of the component (`file`, `status`, `error`, `pdfUrl`, `warmupStatus`,
whether `zetaHelperRef.current` is set, the value of the file input when
`fileInputRef.current` is set) together with the part of the browser it acts on: `window.FS`
when defined, the commands posted to the worker, the URLs revoked, and the downloads
triggered (the `href` and `download` of each clicked link). -/
structure Coordinator where
  file : Option File
  status : ConversionStatus
  error : String
  pdfUrl : String
  warmupStatus : WarmupStatus
  zetaHelperRef : Bool
  fileInput : Option String
  FS : Option VFS
  sent : List WorkerMsg
  revoked : List String
  saved : List (String × String)
  deriving DecidableEq, Repr

/-- The `allowedTypes` array of `handleFileSelect`. -/
def allowedTypes : List String :=
  [ "application/vnd.openxmlformats-officedocument.wordprocessingml.document",
    "application/vnd.openxmlformats-officedocument.spreadsheetml.sheet",
    "application/vnd.openxmlformats-officedocument.presentationml.presentation",
    "application/msword",
    "application/vnd.ms-excel",
    "application/vnd.ms-powerpoint",
    "application/vnd.oasis.opendocument.text",
    "application/vnd.oasis.opendocument.spreadsheet",
    "application/vnd.oasis.opendocument.presentation" ]

/-- The function `handleFileSelect(selectedFile)`. -/
def handleFileSelect (c : Coordinator) (selectedFile : File) : Coordinator :=
  if ¬ selectedFile.type ∈ allowedTypes then
    { c with error := "Please select a Word, Excel, PowerPoint, or OpenDocument file" }
  else
    { c with file := some selectedFile, error := "", pdfUrl := "" }

/-- The message that the `catch` block of `convertToPDF` shows:
`err instanceof Error ? err.message : "Conversion failed"`. An engine exception is not
thrown on this side. -/
def setupErrorMessage : Thrown → String
  | .error m => m
  | _ => "Conversion failed"

/-- The text of the `TypeError` raised by `window.FS.writeFile` when `window.FS` is not
defined. The wording is the host's. -/
def undefinedWriteFileMessage : String :=
  "Cannot read properties of undefined (reading 'writeFile')"

/-- The `extension` constant of `convertToPDF`: `fileName.split('.').pop() || ''`. -/
def stagedExtension (fileName : String) : String :=
  match pop (split fileName '.') with
  | some e => if e = "" then "" else e
  | none => ""

/-- The function `convertToPDF()`, run to its end: the guard, the three setters, then the
`try` block (read the bytes, stage them, post the command) with its `catch`. -/
def convertToPDF (c : Coordinator) : Coordinator :=
  match c.file with
  | none => c
  | some file =>
    if ¬ c.zetaHelperRef ∨ c.warmupStatus ≠ .ready then c
    else
      let c1 : Coordinator := { c with status := .converting, error := "", pdfUrl := "" }
      match file.arrayBuffer with
      | .throws t => { c1 with error := setupErrorMessage t, status := .error }
      | .ok uint8Array =>
        let fileName := file.name
        let inputPath := "/tmp/input." ++ stagedExtension fileName
        let outputPath := "/tmp/output.pdf"
        match c1.FS with
        | none => { c1 with error := undefinedWriteFileMessage, status := .error }
        | some fs =>
          { c1 with
            FS := some (fs.writeFile inputPath uint8Array)
            sent := c1.sent ++ [⟨"convert", fileName, inputPath, outputPath⟩] }

/-- The `disabled` attribute of the "Convert to PDF" button:
`!file || status === 'converting' || warmupStatus !== 'ready'`. -/
def convertDisabled (c : Coordinator) : Bool :=
  c.file.isNone || decide (c.status = .converting) || decide (c.warmupStatus ≠ .ready)

/-- A click on the "Convert to PDF" button, the only caller of `convertToPDF`
(`onClick={convertToPDF}`): the button is rendered only when `!pdfUrl`, and a disabled
button does not run its handler. -/
def clickConvert (c : Coordinator) : Coordinator :=
  if c.pdfUrl ≠ "" then c
  else if convertDisabled c then c
  else convertToPDF c

/-- Whether the regular expression `\.[^/.]+$` matches from the start of these characters
to their end. -/
def extensionMatch : List Char → Bool
  | [] => false
  | c :: rest => decide (c = '.') && !rest.isEmpty && rest.all (fun d => d ≠ '/' && d ≠ '.')

/-- The call `.replace(/\.[^/.]+$/, '')` on the characters of a string: the leftmost match
is removed. -/
def stripExtensionChars : List Char → List Char
  | [] => []
  | c :: rest => if extensionMatch (c :: rest) then [] else c :: stripExtensionChars rest

/-- The `download` attribute that `downloadPDF` gives to its link:
the template string `file?.name.replace(..)` followed by `.pdf`, or `converted.pdf` when
that string is empty. -/
def downloadName (file : Option File) : String :=
  let stem : String :=
    match file with
    | none => "undefined"
    | some f => ⟨stripExtensionChars f.name.data⟩
  let name := stem ++ ".pdf"
  if name = "" then "converted.pdf" else name

/-- The function `downloadPDF()`. -/
def downloadPDF (c : Coordinator) : Coordinator :=
  if c.pdfUrl ≠ "" then
    { c with saved := c.saved ++ [(c.pdfUrl, downloadName c.file)] }
  else c

/-- The function `resetConverter()`. -/
def resetConverter (c : Coordinator) : Coordinator :=
  let c1 : Coordinator := { c with file := none, status := .idle, error := "" }
  let c2 : Coordinator :=
    if c.pdfUrl ≠ "" then { c1 with revoked := c1.revoked ++ [c.pdfUrl], pdfUrl := "" } else c1
  match c2.fileInput with
  | some _ => { c2 with fileInput := some "" }
  | none => c2

/-- What the browser does on the read-back of one `converted` message: whether
`window.FS.readFile` throws although a file is stored at the path, and what
`URL.createObjectURL` of the blob gives. -/
structure ReadBack where
  readFileThrows : Bool
  createObjectURL : Outcome String
  deriving DecidableEq, Repr

/-- The `catch` block of the case `'converted'`. -/
def processingFailed (c : Coordinator) : Coordinator :=
  { c with error := "Failed to process converted PDF", status := .error }

/-- The case `'converted'` of the handler `zHM.thrPort.onmessage`. -/
def onConverted (rb : ReadBack) (c : Coordinator) (from_ to_ : String) : Coordinator :=
  match c.FS with
  | none => processingFailed c
  | some fs =>
    let fs1 := if from_ ≠ "" then fs.unlink from_ else fs
    let c1 : Coordinator := { c with FS := some fs1 }
    match (if rb.readFileThrows then none else fs1.readFile to_) with
    | none => processingFailed c1
    | some _ =>
      match rb.createObjectURL with
      | .throws _ => processingFailed c1
      | .ok url =>
        { c1 with pdfUrl := url, status := .success, FS := some (fs1.unlink to_) }

/-- The case `'error'` of the handler: `setError(errorMsg || 'Conversion failed')` and
`setStatus('error')`. -/
def onError (c : Coordinator) (errorMsg : Option String) : Coordinator :=
  let shown : String :=
    match errorMsg with
    | some m => if m = "" then "Conversion failed" else m
    | none => "Conversion failed"
  { c with error := shown, status := .error }

/-- The handler `zHM.thrPort.onmessage` of the coordinator, the `switch (cmd)`. -/
def onWorkerMessage (rb : ReadBack) (c : Coordinator) : MainMsg → Coordinator
  | .ready => { c with warmupStatus := .ready }
  | .converted _ from_ to_ => onConverted rb c from_ to_
  | .error errorMsg _ => onError c errorMsg
  | .cleaned => c

/-! ## The export filter of the specification -/

/-- The filter table as the specification words it, on the lower-case extension text:
spreadsheet, presentation and drawing extensions, and the word-processing default. -/
def specFilter (ext : String) : String :=
  if ext ∈ ["xlsx", "xls", "ods"] then "calc_pdf_Export"
  else if ext ∈ ["pptx", "ppt", "odp"] then "impress_pdf_Export"
  else if ext = "odg" then "draw_pdf_Export"
  else "writer_pdf_Export"

/-! ## Concrete states -/

/-- A word-processing file `report.docx` with four bytes. -/
def reportFile : File :=
  { name := "report.docx"
    type := "application/vnd.openxmlformats-officedocument.wordprocessingml.document"
    arrayBuffer := .ok [80, 75, 3, 4] }

/-- A picture `photo.png`, whose declared type is not in the allow-list. -/
def pictureFile : File :=
  { name := "photo.png", type := "image/png", arrayBuffer := .ok [137, 80, 78, 71] }

/-- The coordinator once the worker is ready and `report.docx` is selected. -/
def selectedCoordinator : Coordinator :=
  { file := some reportFile, status := .idle, error := "", pdfUrl := ""
    warmupStatus := .ready, zetaHelperRef := true, fileInput := some "report.docx"
    FS := some ⟨[]⟩, sent := [], revoked := [], saved := [] }

/-- The coordinator after an accepted submit of `report.docx`: the request is being
converted, the input is staged and one command has been sent. -/
def convertingCoordinator : Coordinator :=
  { selectedCoordinator with
    status := .converting
    FS := some ⟨[("/tmp/input.docx", [80, 75, 3, 4])]⟩
    sent := [⟨"convert", "report.docx", "/tmp/input.docx", "/tmp/output.pdf"⟩] }

/-- The coordinator when the worker has written the PDF: both staged files exist. -/
def exportedCoordinator : Coordinator :=
  { convertingCoordinator with
    FS := some ⟨[("/tmp/output.pdf", [37, 80, 68, 70]), ("/tmp/input.docx", [80, 75, 3, 4])]⟩ }

/-- The coordinator after a successful conversion of `report.docx`. -/
def successCoordinator : Coordinator :=
  { convertingCoordinator with status := .success, pdfUrl := "blob:pdf-1", FS := some ⟨[]⟩ }

/-- The file `report.docx` when its bytes can no longer be read. -/
def unreadableFile : File :=
  { reportFile with arrayBuffer := .throws (.error "The requested file could not be read") }

/-- A worker that holds the document of an earlier conversion. -/
def busyWorker : Worker :=
  { xModel := .model 1, bean_pdf_export := some "writer_pdf_Export" }

/-- An engine whose `close` throws while every other call succeeds. -/
def closeFailingEngine : Engine :=
  { queryInterface := .ok true, close := .throws (.uno "close vetoed")
    loadComponentFromURL := .ok (.model 2), storeToURL := .ok () }

/-- An engine on which every call succeeds. -/
def healthyEngine : Engine :=
  { queryInterface := .ok true, close := .ok ()
    loadComponentFromURL := .ok (.model 2), storeToURL := .ok () }

/-- The convert command for `report.docx`. -/
def reportCommand : WorkerMsg :=
  ⟨"convert", "report.docx", "/tmp/input.docx", "/tmp/output.pdf"⟩

/-! ## Lemmas on strings -/

theorem toLower_eq_dot {c : Char} (h : c.toLower = '.') : c = '.' := by
  unfold Char.toLower at h
  simp only at h
  split at h
  · rename_i hr
    exfalso
    obtain ⟨h1, h2⟩ := hr
    generalize c.toNat = n at h h1 h2
    interval_cases n <;> revert h <;> decide
  · exact h

theorem dot_not_mem_map_toLower {l : List Char} (h : '.' ∉ l) : '.' ∉ l.map Char.toLower := by
  intro hm
  obtain ⟨c, hc, hcl⟩ := List.mem_map.1 hm
  exact h (toLower_eq_dot hcl ▸ hc)

theorem splitChars_of_not_mem (sep : Char) :
    ∀ l : List Char, sep ∉ l → splitChars sep l = [l]
  | [], _ => rfl
  | c :: cs, h => by
    have hc : c ≠ sep := fun e => h (e ▸ List.mem_cons_self c cs)
    have hcs : sep ∉ cs := fun m => h (List.mem_cons_of_mem c m)
    simp [splitChars, hc, splitChars_of_not_mem sep cs hcs]

theorem splitChars_append_sep (sep : Char) (ext : List Char) (h : sep ∉ ext) :
    ∀ stem : List Char, ∃ first rest,
      splitChars sep (stem ++ sep :: ext) = (first :: rest) ++ [ext]
  | [] => ⟨[], [], by simp [splitChars, splitChars_of_not_mem sep ext h]⟩
  | c :: cs => by
    obtain ⟨first, rest, ih⟩ := splitChars_append_sep sep ext h cs
    by_cases hc : c = sep
    · exact ⟨[], first :: rest, by simp [splitChars, hc, ih]⟩
    · exact ⟨c :: first, rest, by simp [splitChars, hc, ih]⟩

/-- The last piece of `split` on a name `stem.ext` whose `ext` has no separator. -/
theorem pop_split_append (stem ext : String) (h : '.' ∉ ext.data) :
    pop (split (stem ++ "." ++ ext) '.') = some ext := by
  obtain ⟨first, rest, hs⟩ := splitChars_append_sep '.' ext.data h stem.data
  have hd : (stem ++ "." ++ ext).data = stem.data ++ '.' :: ext.data := by
    simp [String.data_append]
  have hl : (String.mk first :: (rest.map String.mk ++ [ext])) =
      (String.mk first :: rest.map String.mk) ++ [ext] := rfl
  simp only [pop, split, hd, hs, List.map_append, List.map_cons, List.map_nil,
    List.cons_append]
  rw [hl, List.getLast?_append]
  simp

/-- The last piece of `split` on a name without separator is the name. -/
theorem pop_split_of_not_mem (name : String) (h : '.' ∉ name.data) :
    pop (split name '.') = some name := by
  simp [pop, split, splitChars_of_not_mem '.' name.data h]

/-- A name with a dot is `stem.ext` for some `ext` without dot. -/
theorem exists_last_dot :
    ∀ l : List Char, '.' ∈ l → ∃ stem ext, l = stem ++ '.' :: ext ∧ '.' ∉ ext
  | [], h => absurd h (List.not_mem_nil _)
  | c :: cs, h => by
    by_cases hcs : '.' ∈ cs
    · obtain ⟨stem, ext, he, hn⟩ := exists_last_dot cs hcs
      exact ⟨c :: stem, ext, by simp [he], hn⟩
    · have hc : c = '.' := by
        rcases List.mem_cons.1 h with e | e
        · exact e.symm
        · exact absurd e hcs
      exact ⟨[], cs, by simp [hc], hcs⟩

theorem toLowerCase_append (a b : String) :
    toLowerCase (a ++ b) = toLowerCase a ++ toLowerCase b := by
  apply String.ext
  simp [toLowerCase, String.data_append]

theorem filterForExtension_some (ext : String) :
    filterForExtension (some ext) = specFilter ext := by
  simp [filterForExtension, specFilter]

/-! ## Lemmas on the virtual filesystem -/

theorem lookupPath_erasePath_self (path : String) :
    ∀ files : List (String × Bytes), lookupPath path (erasePath path files) = none
  | [] => rfl
  | (p, b) :: rest => by
    by_cases hp : p = path
    · simp [erasePath, hp, lookupPath_erasePath_self path rest]
    · simp [erasePath, lookupPath, hp, lookupPath_erasePath_self path rest]

theorem lookupPath_erasePath_of_ne {path other : String} (hne : other ≠ path) :
    ∀ files : List (String × Bytes),
      lookupPath path (erasePath other files) = lookupPath path files
  | [] => rfl
  | (p, b) :: rest => by
    have ih := lookupPath_erasePath_of_ne hne rest
    by_cases hp : p = other
    · subst hp
      simp [erasePath, lookupPath, hne, ih]
    · by_cases hq : p = path
      · subst hq
        simp [erasePath, lookupPath, hp]
      · simp [erasePath, lookupPath, hp, hq, ih]

theorem fileExists_unlink_self (fs : VFS) (path : String) :
    (fs.unlink path).fileExists path = false := by
  simp [VFS.fileExists, VFS.readFile, VFS.unlink, lookupPath_erasePath_self]

theorem readFile_unlink_of_ne (fs : VFS) {path other : String} (hne : other ≠ path) :
    (fs.unlink other).readFile path = fs.readFile path := by
  simp [VFS.readFile, VFS.unlink, lookupPath_erasePath_of_ne hne]

theorem readFile_writeFile_self (fs : VFS) (path : String) (data : Bytes) :
    (fs.writeFile path data).readFile path = some data := by
  simp [VFS.readFile, VFS.writeFile, lookupPath]

/-! ## Lemmas on the download name and the staged extension -/

theorem extensionMatch_of_dot_later (c : Char) (pre ext : List Char) :
    extensionMatch (c :: (pre ++ '.' :: ext)) = false := by
  simp [extensionMatch]

theorem stripExtensionChars_append (ext : List Char) (hne : ext ≠ [])
    (hall : ∀ d ∈ ext, d ≠ '/' ∧ d ≠ '.') :
    ∀ stem : List Char, stripExtensionChars (stem ++ '.' :: ext) = stem
  | [] => by
    have hm : extensionMatch ('.' :: ext) = true := by
      simp [extensionMatch, hne]
      exact hall
    simp [stripExtensionChars, hm]
  | c :: cs => by
    have hm : extensionMatch (c :: (cs ++ '.' :: ext)) = false :=
      extensionMatch_of_dot_later c cs ext
    simp [stripExtensionChars, hm, stripExtensionChars_append ext hne hall cs]

theorem stagedExtension_append (stem ext : String) (h : '.' ∉ ext.data) :
    stagedExtension (stem ++ "." ++ ext) = ext := by
  unfold stagedExtension
  rw [pop_split_append stem ext h]
  by_cases he : ext = "" <;> simp [he]

/-! ## Lemmas on the catch blocks of the worker -/

theorem store_ne_conversionError (h : Nat) (url f : String) (t : Thrown) (fileName : String) :
    Effect.store h url f ≠ conversionError t fileName := by
  cases t <;> simp [conversionError]

theorem load_ne_conversionError (url : String) (t : Thrown) (fileName : String) :
    Effect.load url ≠ conversionError t fileName := by
  cases t <;> simp [conversionError]

theorem topLevelCatch_conversionError (t : Thrown) (fileName : String) :
    topLevelCatch (conversionError t fileName) = .post (caughtError t fileName) := by
  cases t <;> rfl

theorem caughtError_ne_converted (t : Thrown) (fileName a b c : String) :
    caughtError t fileName ≠ .converted a b c := by
  cases t <;> simp [caughtError]

/-- The message for a caught exception is an `error`, with the file name unless the thrown
value is null or undefined. -/
theorem caughtError_shape (t : Thrown) (fileName : String) :
    ∃ e fo, caughtError t fileName = .error e fo ∧
      (fo = some fileName ∨
        (fo = none ∧ (e = some nullMessageError ∨ e = some undefinedMessageError))) := by
  cases t
  · exact ⟨_, _, rfl, Or.inl rfl⟩
  · exact ⟨_, _, rfl, Or.inl rfl⟩
  · exact ⟨_, _, rfl, Or.inl rfl⟩
  · exact ⟨_, _, rfl, Or.inr ⟨rfl, Or.inl rfl⟩⟩
  · exact ⟨_, _, rfl, Or.inr ⟨rfl, Or.inr rfl⟩⟩

theorem posted_catch_append (a b : List Effect) :
    posted ((a ++ b).map topLevelCatch) =
      posted (a.map topLevelCatch) ++ posted (b.map topLevelCatch) := by
  simp [posted, List.filterMap_append]

theorem posted_catch_nil : posted (([] : List Effect).map topLevelCatch) = [] := rfl

theorem posted_catch_load (url : String) (rest : List Effect) :
    posted ((Effect.load url :: rest).map topLevelCatch) =
      posted (rest.map topLevelCatch) := rfl

theorem posted_catch_store (h : Nat) (url f : String) (rest : List Effect) :
    posted ((Effect.store h url f :: rest).map topLevelCatch) =
      posted (rest.map topLevelCatch) := rfl

theorem posted_catch_post (msg : MainMsg) (rest : List Effect) :
    posted ((Effect.post msg :: rest).map topLevelCatch) =
      msg :: posted (rest.map topLevelCatch) := rfl

theorem posted_catch_conversionError (t : Thrown) (fileName : String) (rest : List Effect) :
    posted ((conversionError t fileName :: rest).map topLevelCatch) =
      caughtError t fileName :: posted (rest.map topLevelCatch) := by
  cases t <;> rfl

/-- The block that closes the old document either passes, in the three situations listed,
or throws; it posts nothing itself. -/
theorem closeOldDocument_cases (eng : Engine) (w : Worker) :
    ((w.xModel = .undefined ∨
        ∃ h, w.xModel = .model h ∧
          (eng.queryInterface = .ok false ∨
            (eng.queryInterface = .ok true ∧ eng.close = .ok ()))) ∧
      ∃ w1 done, closeOldDocument eng w = (w1, done, none) ∧
        posted (done.map topLevelCatch) = []) ∨
    (¬ (w.xModel = .undefined ∨
        ∃ h, w.xModel = .model h ∧
          (eng.queryInterface = .ok false ∨
            (eng.queryInterface = .ok true ∧ eng.close = .ok ()))) ∧
      ∃ w1 done t, closeOldDocument eng w = (w1, done, some t) ∧
        posted (done.map topLevelCatch) = []) := by
  rcases w with ⟨x, bean⟩
  rcases eng with ⟨qi, cl, ld, st⟩
  rcases x with _ | _ | x <;> rcases qi with (_ | _) | tq <;> rcases cl with _ | tc <;>
    first
    | exact Or.inl ⟨by simp, _, _, rfl, rfl⟩
    | exact Or.inr ⟨by simp, _, _, _, rfl, rfl⟩

/-! ## The claims -/

/-- Every export that `handleConversion` asks of the engine uses the filter computed from
the file name of the command. -/
theorem store_filter_of_handleConversion (eng : Engine) (w : Worker) (data : WorkerMsg)
    (h : Nat) (url f : String)
    (hm : Effect.store h url f ∈ (handleConversion eng w data).2) :
    f = filterNameOf data.fileName := by
  rcases w with ⟨x, bean⟩
  rcases eng with ⟨qi, cl, ld, st⟩
  rcases x with _ | _ | x <;> rcases qi with (_ | _) | _ <;> rcases cl with _ | _ <;>
    rcases ld with (_ | _ | _) | _ <;> rcases st with _ | _ <;>
    simp_all [handleConversion, closeOldDocument, store_ne_conversionError]

/-- C1: the export filter that the convert handler chooses for a file name is the filter
that the table of the specification gives for the lower-cased text after the last dot of
the name (`stem.ext` with no dot in `ext`), or for the lower-cased whole name when it has
no dot; two names with the same lower-casing get the same filter; and this is the filter
of every export the handler asks of the engine. -/
theorem filterNameOf_by_extension (stem ext name a b : String)
    (hext : '.' ∉ ext.data) (hname : '.' ∉ name.data)
    (hab : toLowerCase a = toLowerCase b) :
    filterNameOf (stem ++ "." ++ ext) = specFilter (toLowerCase ext) ∧
    filterNameOf name = specFilter (toLowerCase name) ∧
    filterNameOf a = filterNameOf b ∧
    (∀ (eng : Engine) (w : Worker) (data : WorkerMsg) (h : Nat) (url f : String),
      data.fileName = stem ++ "." ++ ext →
      Effect.store h url f ∈ (handleConversion eng w data).2 →
      f = specFilter (toLowerCase ext)) := by
  have h1 : filterNameOf (stem ++ "." ++ ext) = specFilter (toLowerCase ext) := by
    have hl : '.' ∉ (toLowerCase ext).data := dot_not_mem_map_toLower hext
    have hd : toLowerCase "." = "." := by decide
    unfold filterNameOf extensionOf
    rw [toLowerCase_append, toLowerCase_append, hd, pop_split_append _ _ hl,
      filterForExtension_some]
  refine ⟨h1, ?_, ?_, ?_⟩
  · have hl : '.' ∉ (toLowerCase name).data := dot_not_mem_map_toLower hname
    unfold filterNameOf extensionOf
    rw [pop_split_of_not_mem _ hl, filterForExtension_some]
  · unfold filterNameOf extensionOf
    rw [hab]
  · intro eng w data h url f hn hm
    rw [store_filter_of_handleConversion eng w data h url f hm, hn, h1]

/-- C1 at `Budget.2024.XLSX`, at `README` and at the pair `Deck.PPT`, `deck.ppt`. -/
theorem filterNameOf_by_extension_witness :
    '.' ∉ "XLSX".data ∧ '.' ∉ "README".data ∧ toLowerCase "Deck.PPT" = toLowerCase "deck.ppt" ∧
    filterNameOf ("Budget.2024" ++ "." ++ "XLSX") = "calc_pdf_Export" ∧
    filterNameOf "README" = "writer_pdf_Export" ∧
    filterNameOf "Deck.PPT" = filterNameOf "deck.ppt" :=
  have h := filterNameOf_by_extension "Budget.2024" "XLSX" "README" "Deck.PPT" "deck.ppt"
    (by decide) (by decide) (by decide)
  ⟨by decide, by decide, by decide, h.1.trans (by decide), h.2.1.trans (by decide), h.2.2.1⟩

/-- C2, as stated, fails: `convertingCoordinator` is the state that a click on the enabled
button leaves, with status `converting`, the file still selected and the worker ready; in
it a call of `convertToPDF` stages the file again and sends a second convert command,
while a click on the button changes nothing. -/
theorem convertToPDF_while_converting_resends :
    clickConvert selectedCoordinator = convertingCoordinator ∧
    convertingCoordinator.status = .converting ∧
    convertToPDF convertingCoordinator ≠ convertingCoordinator ∧
    (convertToPDF convertingCoordinator).sent =
      [⟨"convert", "report.docx", "/tmp/input.docx", "/tmp/output.pdf"⟩,
       ⟨"convert", "report.docx", "/tmp/input.docx", "/tmp/output.pdf"⟩] ∧
    clickConvert convertingCoordinator = convertingCoordinator := by
  decide

/-- C2, amended: in every state whose status is `converting` the submit button is
disabled, and a click on it, the only caller of `convertToPDF`, changes nothing: no state,
no staged file, no command. `convertToPDF` itself does not test the status: called in such
a state it changes nothing if and only if no file is selected, the worker helper is not
set or readiness is not `ready`. Otherwise it clears the PDF URL and, when reading the
bytes throws, ends in status `error` with the message of the thrown `Error`, or
`Conversion failed` for any other thrown value; when `window.FS` is not defined, in status
`error` with the text of the `TypeError`; and else it stages the bytes and sends one more
convert command. -/
theorem convertToPDF_guard_while_converting (c : Coordinator)
    (hs : c.status = .converting) :
    convertDisabled c = true ∧
    clickConvert c = c ∧
    (convertToPDF c = c ↔
      (c.file = none ∨ c.zetaHelperRef = false ∨ c.warmupStatus ≠ .ready)) ∧
    (∀ f : File, c.file = some f → c.zetaHelperRef = true → c.warmupStatus = .ready →
      (∀ m, f.arrayBuffer = .throws (.error m) →
        convertToPDF c = { c with status := .error, error := m, pdfUrl := "" }) ∧
      (∀ t, f.arrayBuffer = .throws t → (∀ m, t ≠ .error m) →
        convertToPDF c =
          { c with status := .error, error := "Conversion failed", pdfUrl := "" }) ∧
      (∀ b, f.arrayBuffer = .ok b → c.FS = none →
        convertToPDF c =
          { c with status := .error, error := undefinedWriteFileMessage, pdfUrl := "" }) ∧
      (∀ b fs, f.arrayBuffer = .ok b → c.FS = some fs →
        convertToPDF c =
          { c with
            status := .converting
            error := ""
            pdfUrl := ""
            FS := some (fs.writeFile ("/tmp/input." ++ stagedExtension f.name) b)
            sent := c.sent ++ [⟨"convert", f.name, "/tmp/input." ++ stagedExtension f.name,
              "/tmp/output.pdf"⟩] })) := by
  have hd : convertDisabled c = true := by simp [convertDisabled, hs]
  refine ⟨hd, by simp [clickConvert, hd], ⟨?_, ?_⟩, ?_⟩
  · intro heq
    by_contra hn
    push_neg at hn
    obtain ⟨hf, hz, hw⟩ := hn
    obtain ⟨f, hf⟩ := Option.ne_none_iff_exists'.1 hf
    have hz2 : c.zetaHelperRef = true := by simpa using hz
    cases hb : f.arrayBuffer with
    | throws t =>
      have h := congrArg Coordinator.status heq
      simp [convertToPDF, hf, hz2, hw, hb, hs] at h
    | ok b =>
      cases hfs : c.FS with
      | none =>
        have h := congrArg Coordinator.status heq
        simp [convertToPDF, hf, hz2, hw, hb, hfs, hs] at h
      | some fs =>
        have h := congrArg (fun x => x.sent.length) heq
        simp [convertToPDF, hf, hz2, hw, hb, hfs] at h
  · rintro (h | h | h)
    · simp [convertToPDF, h]
    · cases hf : c.file <;> simp [convertToPDF, h, hf]
    · cases hf : c.file <;> simp [convertToPDF, h, hf]
  · intro f hf hz hw
    refine ⟨?_, ?_, ?_, ?_⟩
    · intro m hb
      simp [convertToPDF, hf, hz, hw, hb, setupErrorMessage]
    · intro t hb ht
      have hm : setupErrorMessage t = "Conversion failed" := by
        cases t <;> simp_all [setupErrorMessage]
      simp [convertToPDF, hf, hz, hw, hb, hm]
    · intro b hb hfs
      simp [convertToPDF, hf, hz, hw, hb, hfs]
    · intro b fs hb hfs
      simp [convertToPDF, hf, hz, hw, hb, hfs]

/-- C2 amended, at the converting state that an accepted submit of `report.docx` leaves:
the button is disabled and a click changes nothing, while a direct call is not the
identity and sends the command again; and at the same state with a file whose bytes
cannot be read, where a direct call ends in status `error`. -/
theorem convertToPDF_guard_while_converting_witness :
    convertingCoordinator.status = .converting ∧
    convertDisabled convertingCoordinator = true ∧
    clickConvert convertingCoordinator = convertingCoordinator ∧
    convertToPDF convertingCoordinator ≠ convertingCoordinator ∧
    convertToPDF convertingCoordinator =
      { convertingCoordinator with
        status := .converting
        error := ""
        pdfUrl := ""
        FS := some (VFS.writeFile ⟨[("/tmp/input.docx", [80, 75, 3, 4])]⟩
          ("/tmp/input." ++ stagedExtension reportFile.name) [80, 75, 3, 4])
        sent := convertingCoordinator.sent ++
          [⟨"convert", reportFile.name, "/tmp/input." ++ stagedExtension reportFile.name,
            "/tmp/output.pdf"⟩] } ∧
    convertToPDF { convertingCoordinator with file := some unreadableFile } =
      { convertingCoordinator with
        file := some unreadableFile
        status := .error
        error := "The requested file could not be read"
        pdfUrl := "" } :=
  have g := convertToPDF_guard_while_converting convertingCoordinator rfl
  have u := convertToPDF_guard_while_converting
    { convertingCoordinator with file := some unreadableFile } rfl
  ⟨rfl, g.1, g.2.1,
    fun e => absurd (g.2.2.1.1 e) (by decide),
    (g.2.2.2 reportFile rfl rfl rfl).2.2.2 [80, 75, 3, 4]
      ⟨[("/tmp/input.docx", [80, 75, 3, 4])]⟩ rfl rfl,
    (u.2.2.2 unreadableFile rfl rfl rfl).1 "The requested file could not be read" rfl⟩

/-- When the read-back of a `converted` message goes through (the input path is not empty,
the output is stored and read, the object URL is made), neither staged file remains and the
request succeeds. -/
theorem onConverted_success_removes_both (rb : ReadBack) (c : Coordinator) (fs : VFS)
    (fileName from_ to_ url : String) (pdf : Bytes)
    (hfs : c.FS = some fs) (hfrom : from_ ≠ "") (hne : from_ ≠ to_)
    (hout : fs.readFile to_ = some pdf)
    (hread : rb.readFileThrows = false) (hurl : rb.createObjectURL = .ok url) :
    ∃ fs2, (onWorkerMessage rb c (.converted fileName from_ to_)).FS = some fs2 ∧
      fs2.fileExists from_ = false ∧ fs2.fileExists to_ = false ∧
      (onWorkerMessage rb c (.converted fileName from_ to_)).status = .success ∧
      (onWorkerMessage rb c (.converted fileName from_ to_)).pdfUrl = url := by
  have h1 : (fs.unlink from_).readFile to_ = some pdf := by
    rw [readFile_unlink_of_ne fs hne, hout]
  refine ⟨(fs.unlink from_).unlink to_, ?_, ?_, ?_, ?_, ?_⟩
  · simp [onWorkerMessage, onConverted, hfs, hfrom, hread, hurl, h1]
  · simp [VFS.fileExists, readFile_unlink_of_ne _ (Ne.symm hne)]
    simp [VFS.readFile, VFS.unlink, lookupPath_erasePath_self]
  · exact fileExists_unlink_self _ _
  · simp [onWorkerMessage, onConverted, hfs, hfrom, hread, hurl, h1]
  · simp [onWorkerMessage, onConverted, hfs, hfrom, hread, hurl, h1]

/-- C3, at the failing input: both staged files of `report.docx` exist and reading the PDF
back throws. The handler removes the staged input, shows the processing error, and leaves
the staged output `/tmp/output.pdf` in the filesystem, whereas with the same message and a
read that succeeds it removes both. -/
theorem onConverted_read_failure_keeps_output :
    exportedCoordinator.FS.map (fun fs => fs.fileExists "/tmp/input.docx") = some true ∧
    exportedCoordinator.FS.map (fun fs => fs.fileExists "/tmp/output.pdf") = some true ∧
    (onWorkerMessage ⟨true, .ok "blob:pdf-1"⟩ exportedCoordinator
      (.converted "report.docx" "/tmp/input.docx" "/tmp/output.pdf")).status = .error ∧
    (onWorkerMessage ⟨true, .ok "blob:pdf-1"⟩ exportedCoordinator
      (.converted "report.docx" "/tmp/input.docx" "/tmp/output.pdf")).error =
        "Failed to process converted PDF" ∧
    (onWorkerMessage ⟨true, .ok "blob:pdf-1"⟩ exportedCoordinator
      (.converted "report.docx" "/tmp/input.docx" "/tmp/output.pdf")).FS =
        some ⟨[("/tmp/output.pdf", [37, 80, 68, 70])]⟩ ∧
    (onWorkerMessage ⟨false, .ok "blob:pdf-1"⟩ exportedCoordinator
      (.converted "report.docx" "/tmp/input.docx" "/tmp/output.pdf")).FS = some ⟨[]⟩ := by
  decide

/-- C4, as stated, fails: the worker holds a document, its `close` throws, and the load
and the export would succeed. The handler makes no load call, posts `error` and no
`converted`, and keeps the old document. -/
theorem handleConversion_close_failure_blocks_load :
    busyWorker.xModel = .model 1 ∧
    closeFailingEngine.loadComponentFromURL = .ok (.model 2) ∧
    closeFailingEngine.storeToURL = .ok () ∧
    handleConversion closeFailingEngine busyWorker reportCommand =
      (busyWorker,
        [.queryInterface 1, .close 1,
         .post (.error (some "LibreOffice Error: close vetoed") (some "report.docx"))]) ∧
    onmessage closeFailingEngine busyWorker reportCommand =
      handleConversion closeFailingEngine busyWorker reportCommand := by
  decide

/-- C4, amended: for a convert command received while a document is open, an exception of
the closeability query or of the close aborts the command: nothing is loaded, the worker
keeps its state, and the `catch` block answers. The `catch` block posts one `error` with
the file name and the translated exception (`LibreOffice Error: ` and the `Message` of an
engine exception, the `message` of an `Error`, no text for another value), except for a
thrown null or undefined, where it throws a `TypeError` that the top-level handler answers
with one `error` carrying that text and no file name. When the close succeeds (the handle
is dropped) or the document is not closeable (the handle is kept), the worker always calls
the load of `from`: a load that throws ends in the `catch` block, a load that gives no
document ends in `error` with `Failed to load document`, and a load that gives a document
is followed by the export to `to` with the filter of the file name, which ends in the
`catch` block when it throws and in `converted` when it succeeds. -/
theorem handleConversion_with_open_document (eng : Engine) (w : Worker) (data : WorkerMsg)
    (h : Nat) (hw : w.xModel = .model h) :
    ((∀ m, conversionError (.uno m) data.fileName =
        .post (.error (some ("LibreOffice Error: " ++ m)) (some data.fileName))) ∧
      (∀ m, conversionError (.error m) data.fileName =
        .post (.error (some m) (some data.fileName))) ∧
      conversionError .other data.fileName = .post (.error none (some data.fileName)) ∧
      conversionError .null data.fileName = .raise nullMessageError ∧
      conversionError .undefined data.fileName = .raise undefinedMessageError) ∧
    (∀ t, eng.queryInterface = .throws t →
      handleConversion eng w data = (w, [.queryInterface h, conversionError t data.fileName])) ∧
    (∀ t, eng.queryInterface = .ok true → eng.close = .throws t →
      handleConversion eng w data =
        (w, [.queryInterface h, .close h, conversionError t data.fileName])) ∧
    (∀ (x1 : XModel) (done : List Effect),
      (eng.queryInterface = .ok false ∧ x1 = .model h ∧ done = [.queryInterface h]) ∨
      (eng.queryInterface = .ok true ∧ eng.close = .ok () ∧ x1 = .undefined ∧
        done = [.queryInterface h, .close h]) →
      (∀ t, eng.loadComponentFromURL = .throws t →
        handleConversion eng w data =
          ({ xModel := x1, bean_pdf_export := some (filterNameOf data.fileName) },
            done ++ [.load ("file://" ++ data.from_), conversionError t data.fileName])) ∧
      (∀ x, eng.loadComponentFromURL = .ok x → x = .null ∨ x = .undefined →
        handleConversion eng w data =
          ({ xModel := x, bean_pdf_export := some (filterNameOf data.fileName) },
            done ++ [.load ("file://" ++ data.from_),
              .post (.error (some "Failed to load document") (some data.fileName))])) ∧
      (∀ h2 t, eng.loadComponentFromURL = .ok (.model h2) → eng.storeToURL = .throws t →
        handleConversion eng w data =
          ({ xModel := .model h2, bean_pdf_export := some (filterNameOf data.fileName) },
            done ++ [.load ("file://" ++ data.from_),
              .store h2 ("file://" ++ data.to_) (filterNameOf data.fileName),
              conversionError t data.fileName])) ∧
      (∀ h2, eng.loadComponentFromURL = .ok (.model h2) → eng.storeToURL = .ok () →
        handleConversion eng w data =
          ({ xModel := .model h2, bean_pdf_export := some (filterNameOf data.fileName) },
            done ++ [.load ("file://" ++ data.from_),
              .store h2 ("file://" ++ data.to_) (filterNameOf data.fileName),
              .post (.converted data.fileName data.from_ data.to_)]))) ∧
    (data.cmd = "convert" →
      onmessage eng w data =
        ((handleConversion eng w data).1, (handleConversion eng w data).2.map topLevelCatch)) ∧
    (∀ m, topLevelCatch (.raise m) = .post (.error (some m) none)) ∧
    (∀ e, (∀ m, e ≠ .raise m) → topLevelCatch e = e) := by
  rcases w with ⟨x, bean⟩
  simp only at hw
  subst hw
  refine ⟨⟨fun _ => rfl, fun _ => rfl, rfl, rfl, rfl⟩, ?_, ?_, ?_, ?_, fun _ => rfl, ?_⟩
  · intro t hq
    simp [handleConversion, closeOldDocument, hq]
  · intro t hq hc
    simp [handleConversion, closeOldDocument, hq, hc]
  · rintro x1 done (⟨hq, rfl, rfl⟩ | ⟨hq, hc, rfl, rfl⟩)
    · refine ⟨?_, ?_, ?_, ?_⟩
      · intro t hl
        simp [handleConversion, closeOldDocument, hq, hl]
      · rintro x hl (rfl | rfl) <;>
          simp [handleConversion, closeOldDocument, hq, hl] <;> rfl
      · intro h2 t hl hs
        simp [handleConversion, closeOldDocument, hq, hl, hs]
      · intro h2 hl hs
        simp [handleConversion, closeOldDocument, hq, hl, hs]
    · refine ⟨?_, ?_, ?_, ?_⟩
      · intro t hl
        simp [handleConversion, closeOldDocument, hq, hc, hl]
      · rintro x hl (rfl | rfl) <;>
          simp [handleConversion, closeOldDocument, hq, hc, hl] <;> rfl
      · intro h2 t hl hs
        simp [handleConversion, closeOldDocument, hq, hc, hl, hs]
      · intro h2 hl hs
        simp [handleConversion, closeOldDocument, hq, hc, hl, hs]
  · intro hc
    simp [onmessage, hc]
  · intro e he
    cases e <;> first | rfl | exact absurd rfl (he _)

/-- C4 amended, on the worker that holds document 1: with a failing close the command ends
in `error` without a load, and with a healthy engine the old document is closed, the new one
loaded and exported, and the command ends in `converted`. -/
theorem handleConversion_with_open_document_witness :
    busyWorker.xModel = .model 1 ∧
    handleConversion closeFailingEngine busyWorker reportCommand =
      (busyWorker,
        [.queryInterface 1, .close 1,
         conversionError (.uno "close vetoed") reportCommand.fileName]) ∧
    conversionError (.uno "close vetoed") reportCommand.fileName =
      .post (.error (some ("LibreOffice Error: " ++ "close vetoed"))
        (some reportCommand.fileName)) ∧
    handleConversion healthyEngine busyWorker reportCommand =
      ({ xModel := .model 2, bean_pdf_export := some (filterNameOf reportCommand.fileName) },
        [.queryInterface 1, .close 1] ++
          [.load ("file://" ++ reportCommand.from_),
           .store 2 ("file://" ++ reportCommand.to_) (filterNameOf reportCommand.fileName),
           .post (.converted reportCommand.fileName reportCommand.from_ reportCommand.to_)]) :=
  have h := handleConversion_with_open_document
  ⟨rfl, (h closeFailingEngine busyWorker reportCommand 1 rfl).2.2.1 _ rfl rfl,
    (h closeFailingEngine busyWorker reportCommand 1 rfl).1.1 "close vetoed",
    ((h healthyEngine busyWorker reportCommand 1 rfl).2.2.2.1 .undefined
      [.queryInterface 1, .close 1] (Or.inr ⟨rfl, rfl, rfl, rfl⟩)).2.2.2 2 rfl rfl⟩

/-- C5: from every state, those whose status is `success` or `error` among them,
`resetConverter` clears the file, puts the status back to `idle` and the error message to
the empty string, holds no PDF URL afterwards and has revoked the one it held, and leaves
readiness, the worker helper, the filesystem and the commands sent as they were;
`downloadPDF` on the state after the reset triggers no save. -/
theorem resetConverter_clears_request (c : Coordinator) :
    (resetConverter c).file = none ∧
    (resetConverter c).status = .idle ∧
    (resetConverter c).error = "" ∧
    (resetConverter c).pdfUrl = "" ∧
    (c.pdfUrl ≠ "" → (resetConverter c).revoked = c.revoked ++ [c.pdfUrl]) ∧
    (c.pdfUrl = "" → (resetConverter c).revoked = c.revoked) ∧
    (resetConverter c).warmupStatus = c.warmupStatus ∧
    (resetConverter c).zetaHelperRef = c.zetaHelperRef ∧
    (resetConverter c).FS = c.FS ∧
    (resetConverter c).sent = c.sent ∧
    (resetConverter c).saved = c.saved ∧
    downloadPDF (resetConverter c) = resetConverter c := by
  have hurl : (resetConverter c).pdfUrl = "" := by
    by_cases hp : c.pdfUrl = "" <;> cases hi : c.fileInput <;>
      simp [resetConverter, hp, hi]
  refine ⟨?_, ?_, ?_, hurl, ?_, ?_, ?_, ?_, ?_, ?_, ?_, ?_⟩
  all_goals first
    | (simp [downloadPDF, hurl]; done)
    | (by_cases hp : c.pdfUrl = "" <;> cases hi : c.fileInput <;>
        simp [resetConverter, hp, hi])

/-- C5 at the state reached by a successful conversion of `report.docx`. -/
theorem resetConverter_clears_request_witness :
    (successCoordinator.status = .success ∨ successCoordinator.status = .error) ∧
    (resetConverter successCoordinator).status = .idle ∧
    (resetConverter successCoordinator).pdfUrl = "" ∧
    (resetConverter successCoordinator).revoked = ["blob:pdf-1"] ∧
    downloadPDF (resetConverter successCoordinator) = resetConverter successCoordinator :=
  have h := resetConverter_clears_request successCoordinator
  ⟨Or.inl rfl, h.2.1, h.2.2.2.1, h.2.2.2.2.1 (by decide), h.2.2.2.2.2.2.2.2.2.2.2⟩

/-- C6: when the selected file is named `stem.ext`, with `ext` not empty and free of dots
and slashes, the `download` name that `downloadPDF` computes is `stem.pdf`, and with a PDF
held the save it triggers is that of the held URL under this name. -/
theorem downloadPDF_name (c : Coordinator) (f : File) (stem ext : String)
    (hf : c.file = some f) (hn : f.name = stem ++ "." ++ ext)
    (hne : ext ≠ "") (hdot : '.' ∉ ext.data) (hslash : '/' ∉ ext.data) :
    downloadName c.file = stem ++ ".pdf" ∧
    (c.pdfUrl ≠ "" → (downloadPDF c).saved = c.saved ++ [(c.pdfUrl, stem ++ ".pdf")]) := by
  have hd : f.name.data = stem.data ++ '.' :: ext.data := by
    simp [hn, String.data_append]
  have hne2 : ext.data ≠ [] := fun e => hne (String.ext e)
  have hall : ∀ d ∈ ext.data, d ≠ '/' ∧ d ≠ '.' := fun d hdm =>
    ⟨fun e => hslash (e ▸ hdm), fun e => hdot (e ▸ hdm)⟩
  have hstrip : (⟨stripExtensionChars f.name.data⟩ : String) = stem := by
    rw [hd, stripExtensionChars_append ext.data hne2 hall]
  have hnonempty : stem ++ ".pdf" ≠ "" := by
    intro e
    have := congrArg String.length e
    simp only [String.length_append] at this
    have h4 : (".pdf" : String).length = 4 := by decide
    rw [h4] at this
    exact absurd this (by simp)
  have hname : downloadName c.file = stem ++ ".pdf" := by
    simp [downloadName, hf, hstrip, hnonempty]
  refine ⟨hname, fun hp => ?_⟩
  simp [downloadPDF, hp, hname]

/-- C6 at `report.docx` after a successful conversion: the save is named `report.pdf`. -/
theorem downloadPDF_name_witness :
    successCoordinator.file = some reportFile ∧
    reportFile.name = "report" ++ "." ++ "docx" ∧
    downloadName successCoordinator.file = "report" ++ ".pdf" ∧
    (downloadPDF successCoordinator).saved = [("blob:pdf-1", "report" ++ ".pdf")] :=
  have h := downloadPDF_name successCoordinator reportFile "report" "docx" rfl (by decide)
    (by decide) (by decide) (by decide)
  ⟨rfl, by decide, h.1, h.2 (by decide)⟩

/-- C7: a file whose declared type is none of the nine allowed types only sets the
validation message: the selected file, the status, the PDF URL, readiness, the filesystem
and the commands sent stay as they were. -/
theorem handleFileSelect_rejects (c : Coordinator) (selectedFile : File)
    (h : selectedFile.type ∉ allowedTypes) :
    allowedTypes.length = 9 ∧
    handleFileSelect c selectedFile =
      { c with error := "Please select a Word, Excel, PowerPoint, or OpenDocument file" } ∧
    (handleFileSelect c selectedFile).file = c.file ∧
    (handleFileSelect c selectedFile).status = c.status ∧
    (handleFileSelect c selectedFile).pdfUrl = c.pdfUrl ∧
    (handleFileSelect c selectedFile).warmupStatus = c.warmupStatus ∧
    (handleFileSelect c selectedFile).FS = c.FS ∧
    (handleFileSelect c selectedFile).sent = c.sent := by
  have he : handleFileSelect c selectedFile =
      { c with error := "Please select a Word, Excel, PowerPoint, or OpenDocument file" } := by
    unfold handleFileSelect
    rw [if_pos h]
  rw [he]
  exact ⟨rfl, rfl, rfl, rfl, rfl, rfl, rfl, rfl⟩

/-- C7 at a picture of type `image/png`, offered while `report.docx` is selected. -/
theorem handleFileSelect_rejects_witness :
    pictureFile.type ∉ allowedTypes ∧
    handleFileSelect selectedCoordinator pictureFile =
      { selectedCoordinator with
        error := "Please select a Word, Excel, PowerPoint, or OpenDocument file" } :=
  ⟨by decide, (handleFileSelect_rejects selectedCoordinator pictureFile (by decide)).2.1⟩

/-- C8: on a message whose `cmd` is neither `convert` nor `cleanup` the worker posts one
`error` message, whose text is `Unknown message command: ` followed by the `cmd`, makes no
engine call, and keeps its state, so that any next message is handled as from the state
before. -/
theorem onmessage_unknown_command (eng : Engine) (w : Worker) (data : WorkerMsg)
    (h1 : data.cmd ≠ "convert") (h2 : data.cmd ≠ "cleanup") :
    onmessage eng w data =
      (w, [.post (.error (some ("Unknown message command: " ++ data.cmd)) none)]) ∧
    (∃ before after : String,
      "Unknown message command: " ++ data.cmd = before ++ data.cmd ++ after) ∧
    (∀ (eng2 : Engine) (next : WorkerMsg),
      onmessage eng2 (onmessage eng w data).1 next = onmessage eng2 w next) := by
  have h : onmessage eng w data =
      (w, [.post (.error (some ("Unknown message command: " ++ data.cmd)) none)]) := by
    simp [onmessage, h1, h2, topLevelCatch]
  refine ⟨h, ⟨"Unknown message command: ", "", by simp⟩, fun eng2 next => ?_⟩
  rw [h]

/-- C8 at the command `frobnicate`, received while a document is open. -/
theorem onmessage_unknown_command_witness :
    onmessage healthyEngine busyWorker ⟨"frobnicate", "", "", ""⟩ =
      (busyWorker, [.post (.error (some "Unknown message command: frobnicate") none)]) :=
  (onmessage_unknown_command healthyEngine busyWorker ⟨"frobnicate", "", "", ""⟩
    (by decide) (by decide)).1

/-- C9, as stated, fails: an `error` message whose error text is present and empty makes
the coordinator show the fallback `Conversion failed`, not the text of the message. -/
theorem onError_empty_text_shows_fallback :
    (onWorkerMessage ⟨false, .ok "blob:pdf-1"⟩ convertingCoordinator
      (.error (some "") (some "x.odt"))).error = "Conversion failed" ∧
    (onWorkerMessage ⟨false, .ok "blob:pdf-1"⟩ convertingCoordinator
      (.error (some "") (some "x.odt"))).error ≠ "" := by
  decide

/-- C9, amended: on every `error` message the status becomes `error` and the message shown
is the error text of the message when it is present and not empty, and `Conversion failed`
when it is absent or empty; nothing else of the coordinator changes. -/
theorem onError_shows_message (rb : ReadBack) (c : Coordinator)
    (errorMsg fileName : Option String) :
    (onWorkerMessage rb c (.error errorMsg fileName)).status = .error ∧
    (∀ m, errorMsg = some m → m ≠ "" →
      (onWorkerMessage rb c (.error errorMsg fileName)).error = m) ∧
    (errorMsg = none ∨ errorMsg = some "" →
      (onWorkerMessage rb c (.error errorMsg fileName)).error = "Conversion failed") ∧
    onWorkerMessage rb c (.error errorMsg fileName) =
      { c with
        status := .error
        error := (onWorkerMessage rb c (.error errorMsg fileName)).error } := by
  refine ⟨rfl, ?_, ?_, rfl⟩
  · intro m hm hne
    simp [onWorkerMessage, onError, hm, hne]
  · rintro (h | h) <;> simp [onWorkerMessage, onError, h]

/-- C9 amended, at the error message of the worker for `x.odt`. -/
theorem onError_shows_message_witness :
    (onWorkerMessage ⟨false, .ok "blob:pdf-1"⟩ convertingCoordinator
      (.error (some "LibreOffice Error: unsupported") (some "x.odt"))).error =
        "LibreOffice Error: unsupported" ∧
    (onWorkerMessage ⟨false, .ok "blob:pdf-1"⟩ convertingCoordinator
      (.error none (some "x.odt"))).error = "Conversion failed" :=
  ⟨(onError_shows_message ⟨false, .ok "blob:pdf-1"⟩ convertingCoordinator
      (some "LibreOffice Error: unsupported") (some "x.odt")).2.1 _ rfl (by decide),
   (onError_shows_message ⟨false, .ok "blob:pdf-1"⟩ convertingCoordinator
      none (some "x.odt")).2.2.1 (Or.inl rfl)⟩

/-- C10: an accepted submit (a file selected, the worker helper set, readiness `ready`) of
a file named `stem.ext`, with no dot in `ext`, whose bytes `b` are read, with the virtual
filesystem defined: the status becomes `converting`, the error message and the PDF URL are
cleared, `b` is written at `/tmp/input.ext`, where it can be read back, and exactly one
command is added to those sent, `convert` with the original file name, `/tmp/input.ext`
and `/tmp/output.pdf`; nothing else changes. -/
theorem convertToPDF_accepted (c : Coordinator) (f : File) (stem ext : String) (b : Bytes)
    (fs : VFS) (hf : c.file = some f) (hn : f.name = stem ++ "." ++ ext)
    (hdot : '.' ∉ ext.data) (hb : f.arrayBuffer = .ok b)
    (hz : c.zetaHelperRef = true) (hw : c.warmupStatus = .ready) (hfs : c.FS = some fs) :
    convertToPDF c =
      { c with
        status := .converting
        error := ""
        pdfUrl := ""
        FS := some (fs.writeFile ("/tmp/input." ++ ext) b)
        sent := c.sent ++ [⟨"convert", stem ++ "." ++ ext, "/tmp/input." ++ ext,
          "/tmp/output.pdf"⟩] } ∧
    (fs.writeFile ("/tmp/input." ++ ext) b).readFile ("/tmp/input." ++ ext) = some b := by
  have he : stagedExtension (stem ++ "." ++ ext) = ext :=
    stagedExtension_append stem ext hdot
  refine ⟨?_, readFile_writeFile_self _ _ _⟩
  simp [convertToPDF, hf, hb, hz, hw, hfs, he, hn]

/-- C10 at `report.docx`: the accepted submit gives the converting state with
`/tmp/input.docx` staged and one command sent. -/
theorem convertToPDF_accepted_witness :
    selectedCoordinator.file = some reportFile ∧
    reportFile.name = "report" ++ "." ++ "docx" ∧
    convertToPDF selectedCoordinator = convertingCoordinator :=
  ⟨rfl, by decide,
    (convertToPDF_accepted selectedCoordinator reportFile "report" "docx" [80, 75, 3, 4]
      ⟨[]⟩ rfl (by decide) (by decide) rfl rfl rfl rfl).1.trans (by decide)⟩

/-- C11, as stated, fails: the worker holds a document whose close throws, while the load
would return a document and the export would succeed. The one message posted is `error`,
not `converted`. -/
theorem onmessage_convert_close_failure_replies_error :
    reportCommand.cmd = "convert" ∧
    closeFailingEngine.loadComponentFromURL = .ok (.model 2) ∧
    closeFailingEngine.storeToURL = .ok () ∧
    posted (onmessage closeFailingEngine busyWorker reportCommand).2 =
      [.error (some "LibreOffice Error: close vetoed") (some "report.docx")] ∧
    posted (onmessage closeFailingEngine busyWorker reportCommand).2 ≠
      [.converted "report.docx" "/tmp/input.docx" "/tmp/output.pdf"] := by
  decide

/-- C11, amended: on every convert command, from every worker state and for every outcome
of the engine calls, the worker posts exactly one message, never two and never none. It is
`converted` with the file name, `from` and `to` of the command exactly when the block that
closes the old document does not throw (no document was loaded before, or the open one is
not closeable, or its close succeeds), the load returns a document and the export succeeds.
In every other case it is one `error`, which carries the file name of the command unless
the thrown value is null or undefined, where it carries the text of the `TypeError` and no
file name. -/
theorem onmessage_convert_one_reply (eng : Engine) (w : Worker) (data : WorkerMsg)
    (hc : data.cmd = "convert") :
    (∃ m, posted (onmessage eng w data).2 = [m] ∧
      (m = .converted data.fileName data.from_ data.to_ ∨
        ∃ e fo, m = .error e fo ∧
          (fo = some data.fileName ∨
            (fo = none ∧ (e = some nullMessageError ∨ e = some undefinedMessageError))))) ∧
    (posted (onmessage eng w data).2 = [.converted data.fileName data.from_ data.to_] ↔
      (w.xModel = .undefined ∨
        ∃ h, w.xModel = .model h ∧
          (eng.queryInterface = .ok false ∨
            (eng.queryInterface = .ok true ∧ eng.close = .ok ()))) ∧
      ∃ h2, eng.loadComponentFromURL = .ok (.model h2) ∧ eng.storeToURL = .ok ()) := by
  have hm : onmessage eng w data =
      ((handleConversion eng w data).1, (handleConversion eng w data).2.map topLevelCatch) := by
    simp [onmessage, hc]
  rw [hm]
  have hshape := fun t => caughtError_shape t data.fileName
  rcases closeOldDocument_cases eng w with ⟨hok, w1, done, hclose, hdone⟩ |
      ⟨hno, w1, done, t, hclose, hdone⟩
  · simp only [handleConversion, hclose, hok, true_and]
    rcases hl : eng.loadComponentFromURL with (_ | _ | h2) | tl <;>
      rcases hst : eng.storeToURL with _ | ts <;>
      simp only [posted_catch_append, hdone, posted_catch_load, posted_catch_store,
        posted_catch_post, posted_catch_conversionError, posted_catch_nil, List.nil_append] <;>
      simp [caughtError_ne_converted, hshape]
  · simp only [handleConversion, hclose, hno, false_and, iff_false]
    simp only [posted_catch_append, hdone, posted_catch_conversionError, posted_catch_nil,
      List.nil_append]
    simp [caughtError_ne_converted, hshape]

/-- C11 amended, on the command for `report.docx` received while document 1 is open: with a
healthy engine the one message is `converted`, and with an engine whose close throws it is
not, although load and export would succeed. -/
theorem onmessage_convert_one_reply_witness :
    reportCommand.cmd = "convert" ∧
    posted (onmessage healthyEngine busyWorker reportCommand).2 =
      [.converted reportCommand.fileName reportCommand.from_ reportCommand.to_] ∧
    posted (onmessage closeFailingEngine busyWorker reportCommand).2 ≠
      [.converted reportCommand.fileName reportCommand.from_ reportCommand.to_] ∧
    (∃ m, posted (onmessage closeFailingEngine busyWorker reportCommand).2 = [m]) :=
  ⟨rfl,
    (onmessage_convert_one_reply healthyEngine busyWorker reportCommand rfl).2.mpr
      ⟨Or.inr ⟨1, rfl, Or.inr ⟨rfl, rfl⟩⟩, 2, rfl, rfl⟩,
    fun e => by
      rcases ((onmessage_convert_one_reply closeFailingEngine busyWorker reportCommand
        rfl).2.mp e).1 with h | ⟨_, _, h | ⟨_, h⟩⟩
      · exact absurd h (by decide)
      · exact absurd h (by decide)
      · exact absurd h (by decide),
    (onmessage_convert_one_reply closeFailingEngine busyWorker reportCommand rfl).1.imp
      fun _ h => h.1⟩

end DocToPdf
